import Mathlib

/-!
Verification of the sprinter environment manager against its specification.

The development shallowly embeds the core of the repository:
the injection engine, the directory manager, the singleton metaclass and the
environment lifecycle engine (src/sprinter/environment.py).  File contents are
modelled as lists of lines; the filesystem as a list of existing paths;
formula handlers as functions from feature key and action name to an outcome.
-/

/-! ## Injection engine

sprinter/injections.py is not included under src/; only its tests
(src/sprinter/test_injections.py) are.  The two pure content transformations
are therefore modelled from the spec (section 4.2), and validated below
against the concrete input/output pair embedded in the tests
(TEST_CONTENT / TEST_OVERRIDE_CONTENT).
-/

/-- Modelled from the spec: injected blocks are delimited by a pair of marker
lines containing the block name; a marker line for name w is the comment line
consisting of a hash sign followed by w. -/
def isMarker (w : String) (l : String) : Bool := l == "#" ++ w

def containsMarker (w : String) (ls : List String) : Bool := ls.any (isMarker w)

/-- Split a list of lines around the last marker line for w: the first
component is everything up to and including the last marker, the second is
what follows.  If no marker occurs, the first component is empty. -/
def splitAtLastMarker (w : String) : List String → List String × List String
  | [] => ([], [])
  | l :: ls =>
    if containsMarker w ls then
      (l :: (splitAtLastMarker w ls).1, (splitAtLastMarker w ls).2)
    else if isMarker w l then ([l], ls)
    else ([], l :: ls)

def dropLastBlank (ls : List String) : List String :=
  match ls.getLast? with
  | some "" => ls.dropLast
  | _ => ls

def dropFirstBlank : List String → List String
  | "" :: rest => rest
  | ls => ls

/-- Modelled from the spec: clear_content removes the named block (the first
marker line through the last, i.e. markers and content) entirely and leaves
everything else untouched; it is a no-op when no complete block is present.
The single blank separator line that injection places before a block is
removed with it, as the round-trip property of section 8.2 requires. -/
def removeBlockAux (w : String) (ls : List String) : List String → List String
  | [] => ls
  | _ :: rest =>
    if containsMarker w rest then
      dropLastBlank (ls.takeWhile (fun l => !(isMarker w l))) ++ (splitAtLastMarker w rest).2
    else ls

def removeBlock (w : String) (ls : List String) : List String :=
  removeBlockAux w ls (ls.dropWhile (fun l => !(isMarker w l)))

/-- Modelled from the spec: locate the override region (first override marker
line through the last) and detach it from the surrounding content, returning
the remaining lines and the region verbatim.  A lone unmatched marker is not
a region. -/
def splitRegionAux (w : String) (ls : List String) :
    List String → List String × Option (List String)
  | [] => (ls, none)
  | m :: rest =>
    if containsMarker w rest then
      (ls.takeWhile (fun l => !(isMarker w l)) ++ dropFirstBlank (splitAtLastMarker w rest).2,
       some (m :: (splitAtLastMarker w rest).1))
    else (ls, none)

def splitRegion (w : String) (ls : List String) : List String × Option (List String) :=
  splitRegionAux w ls (ls.dropWhile (fun l => !(isMarker w l)))

/-- An injection engine instance: the wrapper token naming this engine's
block, and the optional override marker name (Injections.__init__). -/
structure Injections where
  wrapper : String
  override : Option String

/-- The pair of marker lines wrapping injected text. -/
def blockLines (w : String) (text : List String) : List String :=
  ("#" ++ w) :: (text ++ ["#" ++ w])

def Injections.overrideSplit (i : Injections) (ls : List String) :
    List String × Option (List String) :=
  match i.override with
  | none => (ls, none)
  | some o => splitRegion o ls

/-- Modelled from the spec: inject_content replaces an existing block for the
wrapper name, otherwise appends a new block at the end with exactly one blank
line of separation; an override region, if present, is preserved verbatim and
relocated after every injected block. -/
def injectAux (i : Injections) (body : List String) (text : List String) :
    Option (List String) → List String
  | none => body ++ [""] ++ blockLines i.wrapper text
  | some r => body ++ [""] ++ blockLines i.wrapper text ++ [""] ++ r

def inject_content (i : Injections) (content : List String) (text : List String) :
    List String :=
  injectAux i (removeBlock i.wrapper (i.overrideSplit content).1) text
    (i.overrideSplit content).2

/-- Modelled from the spec: clear_content removes this engine's block and
touches nothing else, in particular not the override region. -/
def clear_content (i : Injections) (content : List String) : List String :=
  removeBlock i.wrapper content

/-- Line form of TEST_CONTENT from src/sprinter/test_injections.py. -/
def TEST_CONTENT : List String :=
  ["", "Testing abc.", "", "#OVERRIDE",
   "here is an override string. it should appear at the bottom.", "#OVERRIDE", ""]

/-- Line form of TEST_OVERRIDE_CONTENT from src/sprinter/test_injections.py. -/
def TEST_OVERRIDE_CONTENT : List String :=
  ["", "Testing abc.", "", "", "#testinjection", "injectme", "#testinjection", "",
   "#OVERRIDE", "here is an override string. it should appear at the bottom.", "#OVERRIDE"]

/-- Validation of the injection model against the repository's own test
TestInjections.test_override: injecting "injectme" into TEST_CONTENT with
wrapper "testinjection" and override marker "OVERRIDE" produces exactly
TEST_OVERRIDE_CONTENT. -/
theorem test_override_reproduced :
    inject_content ⟨"testinjection", some "OVERRIDE"⟩ TEST_CONTENT ["injectme"]
      = TEST_OVERRIDE_CONTENT := by decide

/-! ### Supporting lemmas about the injection transformations -/

theorem data_hash_append (w : String) : ("#" ++ w).data = '#' :: w.data := by
  cases w
  rfl

theorem isMarker_empty (w : String) : isMarker w "" = false := by
  have hne : ("" : String) ≠ "#" ++ w := by
    intro h
    have hd := congrArg String.data h
    rw [data_hash_append] at hd
    exact absurd hd (by simp)
  simp [isMarker, hne]

theorem isMarker_self (w : String) : isMarker w ("#" ++ w) = true := by
  simp [isMarker]

theorem containsMarker_concat_self (w : String) (xs : List String) :
    containsMarker w (xs ++ ["#" ++ w]) = true := by
  simp [containsMarker, List.any_append, isMarker_self w]

theorem splitAtLastMarker_concat (w : String) (xs : List String) :
    splitAtLastMarker w (xs ++ ["#" ++ w]) = (xs ++ ["#" ++ w], []) := by
  induction xs with
  | nil =>
    simp [splitAtLastMarker, containsMarker, isMarker_self w]
  | cons x xs ih =>
    rw [List.cons_append, splitAtLastMarker]
    rw [containsMarker_concat_self w xs, ih]
    simp

theorem dropWhile_of_no_marker (w : String) (ls : List String)
    (h : ∀ l ∈ ls, isMarker w l = false) :
    ls.dropWhile (fun l => !(isMarker w l)) = [] := by
  induction ls with
  | nil => rfl
  | cons x xs ih =>
    rw [List.dropWhile_cons]
    have hx : isMarker w x = false := h x (by simp)
    simp only [hx]
    exact ih (fun l hl => h l (by simp [hl]))

theorem removeBlock_of_no_marker (w : String) (ls : List String)
    (h : ∀ l ∈ ls, isMarker w l = false) :
    removeBlock w ls = ls := by
  unfold removeBlock
  rw [dropWhile_of_no_marker w ls h]
  rfl

theorem splitRegion_of_no_marker (w : String) (ls : List String)
    (h : ∀ l ∈ ls, isMarker w l = false) :
    splitRegion w ls = (ls, none) := by
  unfold splitRegion
  rw [dropWhile_of_no_marker w ls h]
  rfl

theorem removeBlock_cons_case (w : String) (ls : List String) (m : String)
    (rest : List String)
    (hd : ls.dropWhile (fun l => !(isMarker w l)) = m :: rest)
    (hc : containsMarker w rest = true) :
    removeBlock w ls
      = dropLastBlank (ls.takeWhile (fun l => !(isMarker w l)))
          ++ (splitAtLastMarker w rest).2 := by
  unfold removeBlock
  rw [hd]
  simp [removeBlockAux, hc]

theorem removeBlock_append_block (w : String) (C text : List String)
    (hC : ∀ l ∈ C, isMarker w l = false) :
    removeBlock w (C ++ [""] ++ blockLines w text) = C := by
  have hpos : ∀ l ∈ C ++ [""], (fun l => !(isMarker w l)) l = true := by
    intro l hl
    rcases List.mem_append.mp hl with hl | hl
    · simp [hC l hl]
    · simp at hl
      simp [hl, isMarker_empty w]
  have hbd : (blockLines w text).dropWhile (fun l => !(isMarker w l))
      = ("#" ++ w) :: (text ++ ["#" ++ w]) := by
    unfold blockLines
    rw [List.dropWhile_cons]
    simp [isMarker_self w]
  have hbk : (blockLines w text).takeWhile (fun l => !(isMarker w l)) = [] := by
    unfold blockLines
    rw [List.takeWhile_cons]
    simp [isMarker_self w]
  have hd : ((C ++ [""]) ++ blockLines w text).dropWhile (fun l => !(isMarker w l))
      = ("#" ++ w) :: (text ++ ["#" ++ w]) := by
    rw [List.dropWhile_append_of_pos hpos, hbd]
  have ht : ((C ++ [""]) ++ blockLines w text).takeWhile (fun l => !(isMarker w l))
      = C ++ [""] := by
    rw [List.takeWhile_append_of_pos hpos, hbk, List.append_nil]
  rw [removeBlock_cons_case w _ _ _ hd (containsMarker_concat_self w text), ht,
      splitAtLastMarker_concat w text]
  unfold dropLastBlank
  rw [List.getLast?_concat, List.dropLast_concat]
  simp

theorem splitRegion_of_snd_none (w : String) (ls : List String)
    (h : (splitRegion w ls).2 = none) : splitRegion w ls = (ls, none) := by
  unfold splitRegion at h ⊢
  cases hd : ls.dropWhile (fun l => !(isMarker w l)) with
  | nil => rfl
  | cons m rest =>
    rw [hd] at h
    by_cases hc : containsMarker w rest = true
    · simp [splitRegionAux, hc] at h
    · simp [splitRegionAux, hc]

theorem overrideSplit_of_snd_none (i : Injections) (ls : List String)
    (h : (i.overrideSplit ls).2 = none) : i.overrideSplit ls = (ls, none) := by
  unfold Injections.overrideSplit at h ⊢
  cases ho : i.override with
  | none => rfl
  | some o =>
    rw [ho] at h
    exact splitRegion_of_snd_none o ls h

theorem inject_content_of_some (i : Injections) (C text r : List String)
    (h : (i.overrideSplit C).2 = some r) :
    inject_content i C text
      = removeBlock i.wrapper (i.overrideSplit C).1 ++ [""] ++ blockLines i.wrapper text
          ++ [""] ++ r := by
  unfold inject_content
  rw [h]
  rfl

/-- Claim C3 (amended): injection followed by clearing is the identity on
content that contains no pre-existing block for the wrapper name, provided the
engine recognizes no override region in that content (in particular, always
when the engine is constructed without an override marker).  When an override
region is present it is relocated after the re-appended block, so the round
trip cannot return the original content. -/
theorem inject_roundtrip_amended (i : Injections) (C text : List String)
    (hC : ∀ l ∈ C, isMarker i.wrapper l = false)
    (hov : (i.overrideSplit C).2 = none) :
    clear_content i (inject_content i C text) = C := by
  have hsplit := overrideSplit_of_snd_none i C hov
  unfold inject_content
  rw [hsplit]
  show clear_content i (injectAux i (removeBlock i.wrapper C) text none) = C
  rw [removeBlock_of_no_marker i.wrapper C hC]
  show removeBlock i.wrapper (C ++ [""] ++ blockLines i.wrapper text) = C
  exact removeBlock_append_block i.wrapper C text hC

/-- Claim C3 counterexample: take wrapper name B (the content has no B block,
as the claim requires) and an engine whose override marker is OVR, with an
override region in the middle of the content.  inject_content relocates the
region to the end, and clear_content leaves it there, so the round trip does
not return the original content. -/
theorem inject_roundtrip_cex :
    ¬ (clear_content ⟨"B", some "OVR"⟩
        (inject_content ⟨"B", some "OVR"⟩
          ["alpha", "#OVR", "custom", "#OVR", "omega"] ["text"])
        = ["alpha", "#OVR", "custom", "#OVR", "omega"]) := by decide

theorem inject_roundtrip_amended_witness :
    (∀ l ∈ ["alpha", "omega"], isMarker "B" l = false) ∧
    ((Injections.mk "B" none).overrideSplit ["alpha", "omega"]).2 = none ∧
    clear_content ⟨"B", none⟩
        (inject_content ⟨"B", none⟩ ["alpha", "omega"] ["text"])
      = ["alpha", "omega"] :=
  ⟨by decide, by decide,
   inject_roundtrip_amended ⟨"B", none⟩ ["alpha", "omega"] ["text"]
     (by decide) (by decide)⟩

/-- Claim C4: for every input content in which the engine finds an override
region, the output of inject_content is p ++ [blank] ++ region, where the
region is the verbatim text extracted from the input and the injected block is
a suffix of p: the region is preserved and sits strictly after every injected
block, regardless of where it appeared in the input. -/
theorem override_preserved (i : Injections) (C text : List String) (o : String)
    (r : List String) (ho : i.override = some o)
    (hr : (splitRegion o C).2 = some r) :
    ∃ p, inject_content i C text = p ++ [""] ++ r
      ∧ blockLines i.wrapper text <:+ p := by
  have hos : i.overrideSplit C = splitRegion o C := by
    unfold Injections.overrideSplit
    rw [ho]
  have h2 : (i.overrideSplit C).2 = some r := by
    rw [hos]
    exact hr
  refine ⟨removeBlock i.wrapper (i.overrideSplit C).1 ++ [""] ++ blockLines i.wrapper text,
    ?_, ?_⟩
  · rw [inject_content_of_some i C text r h2]
  · exact ⟨removeBlock i.wrapper (i.overrideSplit C).1 ++ [""], rfl⟩

theorem override_preserved_witness :
    ((Injections.mk "testinjection" (some "OVERRIDE")).override = some "OVERRIDE") ∧
    (splitRegion "OVERRIDE" TEST_CONTENT).2
      = some ["#OVERRIDE", "here is an override string. it should appear at the bottom.",
              "#OVERRIDE"] ∧
    ∃ p, inject_content ⟨"testinjection", some "OVERRIDE"⟩ TEST_CONTENT ["injectme"]
        = p ++ [""] ++ ["#OVERRIDE",
            "here is an override string. it should appear at the bottom.", "#OVERRIDE"]
      ∧ blockLines "testinjection" ["injectme"] <:+ p :=
  ⟨rfl, by decide,
   override_preserved ⟨"testinjection", some "OVERRIDE"⟩ TEST_CONTENT ["injectme"]
     "OVERRIDE" _ rfl (by decide)⟩

/-! ## Queued injections and the shell-activation hook -/

/-- The line injected into the shell profiles by inject_environment_rc:
source the environment rc file when the root directory exists
(src/sprinter/environment.py:189-192). -/
def sourceRcLine (root : String) : String :=
  "[ -d " ++ (root ++ (" ] && . " ++ (root ++ "/.rc")))

inductive IAction where
  | inject (text : String)
  | clearA
deriving DecidableEq

def applyOp (i : Injections) (content : List String) : IAction → List String
  | .inject t => inject_content i content [t]
  | .clearA => clear_content i content

/-- Modelled from the spec: commit applies every queued action, for each path
in call order, over the current file contents (section 4.2).  The filesystem
of shell files is modelled as a map from path to content lines. -/
def commitOps (i : Injections) (q : List (String × IAction))
    (files : String → List String) : String → List String :=
  q.foldl (fun fs op p => if p = op.1 then applyOp i (fs p) op.2 else fs p) files

/-- From src/sprinter/environment.py:184-192 (inject_environment_rc): the
queued operations are a clear of the ~/.profile block followed by injections
into ~/.bash_profile and ~/.bashrc of the rc-sourcing line. -/
def injectEnvironmentRcOps (root : String) : List (String × IAction) :=
  [("~/.profile", IAction.clearA),
   ("~/.bash_profile", IAction.inject (sourceRcLine root)),
   ("~/.bashrc", IAction.inject (sourceRcLine root))]

/-- From _warmup (src/sprinter/environment.py:248): the injection wrapper is
the upper-cased sprinter namespace joined by an underscore to the environment
namespace, and no override marker is configured. -/
def envInjections (sprinterNs ns : String) : Injections :=
  ⟨sprinterNs.toUpper ++ "_" ++ ns, none⟩

/-- Number of marker lines for wrapper w in a file: one complete injected
block contributes exactly two. -/
def markerCount (w : String) (ls : List String) : Nat :=
  (ls.filter (isMarker w)).length

theorem commitOps_cons (i : Injections) (op : String × IAction)
    (q : List (String × IAction)) (files : String → List String) :
    commitOps i (op :: q) files
      = commitOps i q (fun p => if p = op.1 then applyOp i (files p) op.2 else files p) := rfl

theorem inject_content_no_override (w : String) (C : List String) (t : String)
    (hC : ∀ l ∈ C, isMarker w l = false) :
    inject_content ⟨w, none⟩ C [t] = C ++ [""] ++ blockLines w [t] := by
  show injectAux ⟨w, none⟩ (removeBlock w C) [t] none = C ++ [""] ++ blockLines w [t]
  rw [removeBlock_of_no_marker w C hC]
  rfl

theorem data_bracket_append (s : String) :
    ("[ -d " ++ s).data = '[' :: (' ' :: ('-' :: ('d' :: (' ' :: s.data)))) := by
  cases s
  rfl

theorem isMarker_sourceRcLine (w root : String) :
    isMarker w (sourceRcLine root) = false := by
  have hne : sourceRcLine root ≠ "#" ++ w := by
    intro h
    have hd := congrArg String.data h
    rw [data_hash_append] at hd
    unfold sourceRcLine at hd
    rw [data_bracket_append] at hd
    simp at hd
  simp [isMarker, hne]

theorem markerCount_append (w : String) (a b : List String) :
    markerCount w (a ++ b) = markerCount w a + markerCount w b := by
  simp [markerCount, List.filter_append]

theorem markerCount_of_no_marker (w : String) (ls : List String)
    (h : ∀ l ∈ ls, isMarker w l = false) :
    markerCount w ls = 0 := by
  simp only [markerCount, List.length_eq_zero]
  exact List.filter_eq_nil_iff.mpr (fun l hl => by simp [h l hl])

theorem markerCount_blockLines (w : String) (t : String)
    (ht : isMarker w t = false) :
    markerCount w (blockLines w [t]) = 2 := by
  simp [markerCount, blockLines, List.filter, isMarker_self w, ht]

theorem markerCount_inject (w : String) (C : List String) (t : String)
    (hC : ∀ l ∈ C, isMarker w l = false) (ht : isMarker w t = false) :
    markerCount w (inject_content ⟨w, none⟩ C [t]) = 2 := by
  rw [inject_content_no_override w C t hC, markerCount_append, markerCount_append,
      markerCount_of_no_marker w C hC, markerCount_blockLines w t ht]
  simp [markerCount, isMarker_empty w]

theorem clear_content_marker_free (w : String) (o : Option String) (C : List String)
    (hC : ∀ l ∈ C, isMarker w l = false) :
    clear_content ⟨w, o⟩ C = C := by
  unfold clear_content
  exact removeBlock_of_no_marker w C hC

theorem commit_hook_eval (i : Injections) (root : String)
    (files : String → List String) :
    (commitOps i (injectEnvironmentRcOps root) files "~/.bash_profile"
        = inject_content i (files "~/.bash_profile") [sourceRcLine root])
    ∧ (commitOps i (injectEnvironmentRcOps root) files "~/.bashrc"
        = inject_content i (files "~/.bashrc") [sourceRcLine root])
    ∧ (commitOps i (injectEnvironmentRcOps root) files "~/.profile"
        = clear_content i (files "~/.profile")) := by
  have h1 : ("~/.bash_profile" : String) ≠ "~/.profile" := by decide
  have h2 : ("~/.bash_profile" : String) ≠ "~/.bashrc" := by decide
  have h3 : ("~/.bashrc" : String) ≠ "~/.profile" := by decide
  have h4 : ("~/.bashrc" : String) ≠ "~/.bash_profile" := by decide
  have h5 : ("~/.profile" : String) ≠ "~/.bash_profile" := by decide
  have h6 : ("~/.profile" : String) ≠ "~/.bashrc" := by decide
  refine ⟨?_, ?_, ?_⟩ <;>
    simp [injectEnvironmentRcOps, commitOps, applyOp, h1, h2, h3, h4, h5, h6]

/-- Claim C9 (amended): after the shell-activation hook operations are
committed, ~/.bash_profile and ~/.bashrc each contain exactly one injected
block (two wrapper marker lines) holding the line that sources root/.rc
conditionally on the root directory existing, while ~/.profile has its block
cleared and contains none, provided the prior file contents contain no
wrapper marker lines. -/
theorem hook_injection_amended (root sns ns : String) (files : String → List String)
    (hbp : ∀ l ∈ files "~/.bash_profile", isMarker (envInjections sns ns).wrapper l = false)
    (hbr : ∀ l ∈ files "~/.bashrc", isMarker (envInjections sns ns).wrapper l = false)
    (hpr : ∀ l ∈ files "~/.profile", isMarker (envInjections sns ns).wrapper l = false) :
    (markerCount (envInjections sns ns).wrapper
        (commitOps (envInjections sns ns) (injectEnvironmentRcOps root) files
          "~/.bash_profile") = 2
      ∧ sourceRcLine root
          ∈ commitOps (envInjections sns ns) (injectEnvironmentRcOps root) files
              "~/.bash_profile")
    ∧ (markerCount (envInjections sns ns).wrapper
        (commitOps (envInjections sns ns) (injectEnvironmentRcOps root) files
          "~/.bashrc") = 2
      ∧ sourceRcLine root
          ∈ commitOps (envInjections sns ns) (injectEnvironmentRcOps root) files
              "~/.bashrc")
    ∧ markerCount (envInjections sns ns).wrapper
        (commitOps (envInjections sns ns) (injectEnvironmentRcOps root) files
          "~/.profile") = 0 := by
  obtain ⟨e1, e2, e3⟩ := commit_hook_eval (envInjections sns ns) root files
  have hw : envInjections sns ns = ⟨(envInjections sns ns).wrapper, none⟩ := rfl
  have hsrc := isMarker_sourceRcLine (envInjections sns ns).wrapper root
  refine ⟨⟨?_, ?_⟩, ⟨?_, ?_⟩, ?_⟩
  · rw [e1, hw]
    exact markerCount_inject _ _ _ hbp hsrc
  · rw [e1, hw, inject_content_no_override _ _ _ hbp]
    simp [blockLines]
  · rw [e2, hw]
    exact markerCount_inject _ _ _ hbr hsrc
  · rw [e2, hw, inject_content_no_override _ _ _ hbr]
    simp [blockLines]
  · rw [e3, hw, clear_content_marker_free _ _ _ hpr]
    exact markerCount_of_no_marker _ _ hpr

/-- Claim C9 counterexample: the hook clears ~/.profile instead of injecting
into it (env.py:186-188), so committing the hook over empty shell files leaves
~/.profile without any injected block, contradicting the claim that each of
the three files contains exactly one block. -/
theorem hook_profile_cex :
    commitOps (envInjections "sprinter" "test") (injectEnvironmentRcOps "/r")
        (fun _ => []) "~/.profile" = []
    ∧ ¬ (markerCount (envInjections "sprinter" "test").wrapper
          (commitOps (envInjections "sprinter" "test") (injectEnvironmentRcOps "/r")
            (fun _ => []) "~/.profile") = 2) := by
  refine ⟨by decide, by decide⟩

theorem hook_injection_amended_witness :
    (markerCount (envInjections "sprinter" "test").wrapper
        (commitOps (envInjections "sprinter" "test") (injectEnvironmentRcOps "/r")
          (fun _ => ["echo hello"]) "~/.bash_profile") = 2
      ∧ sourceRcLine "/r"
          ∈ commitOps (envInjections "sprinter" "test") (injectEnvironmentRcOps "/r")
              (fun _ => ["echo hello"]) "~/.bash_profile")
    ∧ (markerCount (envInjections "sprinter" "test").wrapper
        (commitOps (envInjections "sprinter" "test") (injectEnvironmentRcOps "/r")
          (fun _ => ["echo hello"]) "~/.bashrc") = 2
      ∧ sourceRcLine "/r"
          ∈ commitOps (envInjections "sprinter" "test") (injectEnvironmentRcOps "/r")
              (fun _ => ["echo hello"]) "~/.bashrc")
    ∧ markerCount (envInjections "sprinter" "test").wrapper
        (commitOps (envInjections "sprinter" "test") (injectEnvironmentRcOps "/r")
          (fun _ => ["echo hello"]) "~/.profile") = 0 :=
  hook_injection_amended "/r" "sprinter" "test" (fun _ => ["echo hello"])
    (by decide) (by decide) (by decide)

/-! ## Directory manager

sprinter/directory.py is not under src/; only its tests
(src/sprinter/directory_tests.py) are.  The manager is modelled from the
spec, section 4.1, with the filesystem as a list of existing paths.
-/

def addPath (p : String) (fs : List String) : List String :=
  if fs.contains p then fs else p :: fs

theorem mem_addPath_self (p : String) (fs : List String) : p ∈ addPath p fs := by
  unfold addPath
  by_cases h : fs.contains p = true
  · rw [if_pos h]
    exact List.elem_iff.mp h
  · rw [if_neg h]
    exact List.mem_cons_self p fs

theorem mem_addPath_mono (p q : String) (fs : List String) (h : q ∈ fs) :
    q ∈ addPath p fs := by
  unfold addPath
  by_cases hc : fs.contains p = true
  · rw [if_pos hc]
    exact h
  · rw [if_neg hc]
    exact List.mem_cons_of_mem p h

theorem addPath_of_mem (p : String) (fs : List String) (h : p ∈ fs) :
    addPath p fs = fs := by
  unfold addPath
  rw [if_pos (List.elem_iff.mpr h)]

structure DirectoryM where
  root : String
  rewriteRc : Bool
  new : Bool

/-- Modelled from the spec: the constructor derives the root path as
sprinter_root/namespace and tracks new-vs-existing at construction time
(test_initialize_new asserts the flag right after construction). -/
def DirectoryM.create (ns sprinterRoot : String) (rw : Bool) (fs : List String) :
    DirectoryM :=
  ⟨sprinterRoot ++ "/" ++ ns, rw, !(fs.contains (sprinterRoot ++ "/" ++ ns))⟩

/-- Modelled from the spec: initialize creates the environment root and its
subdirectories if absent, reading the new flag as of entry (the precondition
check); afterwards the root exists, so the stored flag becomes false
(test_initialize and test_initialize_new assert the flag is false after any
initialize call).  Returns the updated directory, the updated filesystem and
the flag value observed at entry. -/
def DirectoryM.initRoot (d : DirectoryM) (fs : List String) :
    DirectoryM × List String × Bool :=
  (⟨d.root, d.rewriteRc, false⟩,
   addPath (d.root ++ "/include")
     (addPath (d.root ++ "/lib") (addPath (d.root ++ "/bin") (addPath d.root fs))),
   !(fs.contains d.root))

/-- Validation: the constructor marks a directory over an absent root new. -/
theorem create_new_of_absent (ns sr : String) (rw : Bool) (fs : List String)
    (h : (sr ++ "/" ++ ns) ∉ fs) :
    (DirectoryM.create ns sr rw fs).new = true := by
  simp [DirectoryM.create, h]

/-- Claim C8: on a previously nonexistent root, the first initialize call
observes the new flag true at its precondition check, the second call leaves
the stored flag false, bin/ and lib/ exist after either call, and the second
call changes nothing besides the flag (here nothing at all, the flag already
being false after the first call). -/
theorem initialize_twice (d : DirectoryM) (fs0 : List String)
    (habs : d.root ∉ fs0) (hnew : d.new = true) :
    (d.initRoot fs0).2.2 = true
    ∧ ((d.initRoot fs0).1.initRoot (d.initRoot fs0).2.1).1.new = false
    ∧ (d.root ++ "/bin") ∈ (d.initRoot fs0).2.1
    ∧ (d.root ++ "/lib") ∈ (d.initRoot fs0).2.1
    ∧ (d.root ++ "/bin") ∈ ((d.initRoot fs0).1.initRoot (d.initRoot fs0).2.1).2.1
    ∧ (d.root ++ "/lib") ∈ ((d.initRoot fs0).1.initRoot (d.initRoot fs0).2.1).2.1
    ∧ ((d.initRoot fs0).1.initRoot (d.initRoot fs0).2.1).2.1
        = (d.initRoot fs0).2.1
    ∧ ((d.initRoot fs0).1.initRoot (d.initRoot fs0).2.1).1
        = (d.initRoot fs0).1 := by
  have hbin : (d.root ++ "/bin") ∈ (d.initRoot fs0).2.1 :=
    mem_addPath_mono _ _ _ (mem_addPath_mono _ _ _ (mem_addPath_self _ _))
  have hlib : (d.root ++ "/lib") ∈ (d.initRoot fs0).2.1 :=
    mem_addPath_mono _ _ _ (mem_addPath_self _ _)
  have hroot : d.root ∈ (d.initRoot fs0).2.1 :=
    mem_addPath_mono _ _ _
      (mem_addPath_mono _ _ _ (mem_addPath_mono _ _ _ (mem_addPath_self _ _)))
  have hinc : (d.root ++ "/include") ∈ (d.initRoot fs0).2.1 :=
    mem_addPath_self _ _
  have hsame : ((d.initRoot fs0).1.initRoot (d.initRoot fs0).2.1).2.1
      = (d.initRoot fs0).2.1 := by
    show addPath (d.root ++ "/include")
      (addPath (d.root ++ "/lib")
        (addPath (d.root ++ "/bin") (addPath d.root (d.initRoot fs0).2.1)))
      = (d.initRoot fs0).2.1
    rw [addPath_of_mem _ _ hroot, addPath_of_mem _ _ hbin,
        addPath_of_mem _ _ hlib, addPath_of_mem _ _ hinc]
  refine ⟨?_, rfl, hbin, hlib, ?_, ?_, hsame, rfl⟩
  · simp [DirectoryM.initRoot, habs]
  · rw [hsame]
    exact hbin
  · rw [hsame]
    exact hlib

theorem initialize_twice_witness :
    (("/tmp/s" ++ "/" ++ "test") ∉ ([] : List String))
    ∧ (DirectoryM.create "test" "/tmp/s" true []).new = true
    ∧ ((DirectoryM.create "test" "/tmp/s" true []).initRoot []).2.2 = true
    ∧ (((DirectoryM.create "test" "/tmp/s" true []).initRoot []).1.initRoot
        ((DirectoryM.create "test" "/tmp/s" true []).initRoot []).2.1).1.new = false
    ∧ ((DirectoryM.create "test" "/tmp/s" true []).root ++ "/bin")
        ∈ ((DirectoryM.create "test" "/tmp/s" true []).initRoot []).2.1
    ∧ (((DirectoryM.create "test" "/tmp/s" true []).initRoot []).1.initRoot
        ((DirectoryM.create "test" "/tmp/s" true []).initRoot []).2.1).2.1
        = ((DirectoryM.create "test" "/tmp/s" true []).initRoot []).2.1 :=
  ⟨by decide, by decide,
   (initialize_twice (DirectoryM.create "test" "/tmp/s" true []) [] (by decide)
     (by decide)).1,
   (initialize_twice (DirectoryM.create "test" "/tmp/s" true []) [] (by decide)
     (by decide)).2.1,
   (initialize_twice (DirectoryM.create "test" "/tmp/s" true []) [] (by decide)
     (by decide)).2.2.1,
   (initialize_twice (DirectoryM.create "test" "/tmp/s" true []) [] (by decide)
     (by decide)).2.2.2.2.2.2.1⟩

/-! ## Singleton metaclass (src/sprinter/singleton.py) -/

structure SingletonState (V : Type) where
  instances : List (String × V)

def slookup {V : Type} (k : String) : List (String × V) → Option V
  | [] => none
  | (k1, v) :: rest => if k = k1 then some v else slookup k rest

/-- From src/sprinter/singleton.py (Singleton.__call__): if the class is not
in the shared instance dictionary, construct an instance from the call
arguments and record it; in every case return the recorded instance.  The
class is modelled as a String key, the constructor as a function of the class
and the call arguments, and the shared _instances dictionary as the state. -/
def singletonCall {V A : Type} (ctor : String → A → V) (st : SingletonState V)
    (cls : String) (args : A) : V × SingletonState V :=
  match slookup cls st.instances with
  | some v => (v, st)
  | none => (ctor cls args, ⟨(cls, ctor cls args) :: st.instances⟩)

theorem singletonCall_of_cached {V A : Type} (ctor : String → A → V)
    (st : SingletonState V) (cls : String) (args : A) (v : V)
    (h : slookup cls st.instances = some v) :
    singletonCall ctor st cls args = (v, st) := by
  unfold singletonCall
  rw [h]

theorem singletonCall_of_fresh {V A : Type} (ctor : String → A → V)
    (st : SingletonState V) (cls : String) (args : A)
    (h : slookup cls st.instances = none) :
    singletonCall ctor st cls args
      = (ctor cls args, ⟨(cls, ctor cls args) :: st.instances⟩) := by
  unfold singletonCall
  rw [h]

theorem slookup_cons_ne {V : Type} (k k1 : String) (v : V)
    (rest : List (String × V)) (h : k ≠ k1) :
    slookup k ((k1, v) :: rest) = slookup k rest := by
  simp [slookup, h]

/-- Claim C10: for a class not yet in the instance dictionary, the first call
creates the instance from its arguments and records it; afterwards every call
for that class returns that identical instance with the new arguments ignored
and the state unchanged, and calls for other classes never disturb the
recorded instance, so at most one instance of the class ever exists. -/
theorem singleton_call {V A : Type} (ctor : String → A → V)
    (st0 : SingletonState V) (cls : String) (a1 : A)
    (hfresh : slookup cls st0.instances = none) :
    (singletonCall ctor st0 cls a1).1 = ctor cls a1
    ∧ slookup cls ((singletonCall ctor st0 cls a1).2).instances = some (ctor cls a1)
    ∧ (∀ st : SingletonState V, ∀ a2 : A,
        slookup cls st.instances = some ((singletonCall ctor st0 cls a1).1) →
        singletonCall ctor st cls a2 = ((singletonCall ctor st0 cls a1).1, st))
    ∧ (∀ cls2 : String, ∀ a2 : A, cls2 ≠ cls →
        slookup cls
          ((singletonCall ctor ((singletonCall ctor st0 cls a1).2) cls2 a2).2).instances
          = some (ctor cls a1)) := by
  have hfst : (singletonCall ctor st0 cls a1).1 = ctor cls a1 := by
    unfold singletonCall
    rw [hfresh]
  have hsnd : (singletonCall ctor st0 cls a1).2
      = ⟨(cls, ctor cls a1) :: st0.instances⟩ := by
    unfold singletonCall
    rw [hfresh]
  have hcached : slookup cls ((singletonCall ctor st0 cls a1).2).instances
      = some (ctor cls a1) := by
    rw [hsnd]
    unfold slookup
    rw [if_pos rfl]
  refine ⟨hfst, hcached, ?_, ?_⟩
  · intro st a2 h
    rw [hfst] at h
    rw [singletonCall_of_cached ctor st cls a2 (ctor cls a1) h, hfst]
  · intro cls2 a2 hne
    cases h2 : slookup cls2 ((singletonCall ctor st0 cls a1).2).instances with
    | some v =>
      rw [singletonCall_of_cached ctor _ cls2 a2 v h2]
      exact hcached
    | none =>
      rw [singletonCall_of_fresh ctor _ cls2 a2 h2]
      show slookup cls
          ((cls2, ctor cls2 a2) :: (singletonCall ctor st0 cls a1).2.instances)
          = some (ctor cls a1)
      rw [slookup_cons_ne cls cls2 _ _ (Ne.symm hne)]
      exact hcached

theorem singleton_call_witness :
    slookup "MyClass" (([] : List (String × String))) = none
    ∧ ((singletonCall (fun c _ => c ++ "-instance") ⟨[]⟩ "MyClass" 1).1
        = "MyClass" ++ "-instance"
      ∧ slookup "MyClass"
          ((singletonCall (fun c _ => c ++ "-instance") ⟨[]⟩ "MyClass" 1).2).instances
          = some ("MyClass" ++ "-instance")
      ∧ (∀ st : SingletonState String, ∀ a2 : Nat,
          slookup "MyClass" st.instances
              = some ((singletonCall (fun c _ => c ++ "-instance") ⟨[]⟩ "MyClass" 1).1) →
          singletonCall (fun c _ => c ++ "-instance") st "MyClass" a2
            = ((singletonCall (fun c _ => c ++ "-instance") ⟨[]⟩ "MyClass" 1).1, st))
      ∧ (∀ cls2 : String, ∀ a2 : Nat, cls2 ≠ "MyClass" →
          slookup "MyClass"
            ((singletonCall (fun c _ => c ++ "-instance")
              ((singletonCall (fun c _ => c ++ "-instance") ⟨[]⟩ "MyClass" 1).2)
              cls2 a2).2).instances
            = some ("MyClass" ++ "-instance"))) :=
  ⟨rfl, singleton_call (fun c _ => c ++ "-instance") ⟨[]⟩ "MyClass" 1 rfl⟩

/-! ## Environment lifecycle engine (src/sprinter/environment.py)

The engine state tracks the fields the claims are about: namespace and root,
the Directory new flag, the rc-rewrite flag, the filesystem, the per-feature
error records (_error_dict), a trace of the handler actions actually invoked,
the queued injection operations, the rc file lines, the persisted manifest
file and the in-memory target manifest.  Handler actions are modelled as
functions from feature key and action name to an outcome: a returned list of
error strings or a raised exception.

environment.py references several names that are never bound.  install and
update assign self.phase = PHASE.INSTALL / PHASE.UPDATE (env.py:83 and 109)
while the import at env.py:7 is PHASES, so both raise NameError as their
first body statement, right after the decorator guards and before any other
work; _instantiate_features reads the bare names config (env.py:264 and 269;
the bound local is feature_config) and errors (env.py:273); the except
branch of _run_action calls self.log_feature_error (the defined method is
_log_feature_error); and update would call the undefined self.resolve_feature
(env.py:114), though the PHASE NameError preempts it.  Following Python name
and attribute semantics, the embedding reproduces each of these as a raised
exception at its program point.  install_sandboxes performs package-manager
I/O only on OS X and is modelled as a no-op, as are the external Config
collaborator calls (grab_inputs, add_additional_context).
-/

abbrev FeatureKey := String × String

inductive Outcome where
  | ok (errs : List String)
  | raise (msg : String)
deriving DecidableEq

abbrev Handlers := FeatureKey → String → Outcome

inductive Exc where
  | notInstalled (ns : String)
  | attrError (attr : String)
  | handlerExc (msg : String)
  | nameError (nm : String)
deriving DecidableEq

structure EnvState where
  ns : String
  root : String
  dirNew : Bool
  rewriteRc : Bool
  fs : List String
  err : FeatureKey → List String
  errorOccured : Bool
  log : List (FeatureKey × String)
  queue : List (String × IAction)
  rcLines : List String
  manifestFile : Option (List String)
  targetManifest : List String
  committed : Bool

/-- From Environment._run_action (env.py:335-345): return without running
when the feature's error record is nonempty and run_if_error is not set;
otherwise run the handler action and append the returned errors to the
record.  When the action raises, the except branch evaluates
self.log_feature_error, an attribute that does not exist (the defined method
is _log_feature_error), so an AttributeError propagates and the original
exception is discarded. -/
def runAction (h : Handlers) (f : FeatureKey) (a : String) (force : Bool)
    (s : EnvState) : EnvState × Option Exc :=
  if s.err f ≠ [] ∧ force = false then (s, none)
  else
    match h f a with
    | .ok errs =>
      ({s with err := fun g => if g = f then s.err f ++ errs else s.err g,
               errorOccured := s.errorOccured || !errs.isEmpty,
               log := s.log ++ [(f, a)]}, none)
    | .raise _ =>
      ({s with log := s.log ++ [(f, a)]}, some (.attrError "log_feature_error"))

/-- Run a list of (feature, action, run_if_error) triples in order, stopping
at the first raised exception (which aborts the enclosing loop in Python). -/
def runActs (h : Handlers) :
    List (FeatureKey × String × Bool) → EnvState → EnvState × Option Exc
  | [], s => (s, none)
  | (f, a, force) :: rest, s =>
    match (runAction h f a force s).2 with
    | none => runActs h rest (runAction h f a force s).1
    | some _ => runAction h f a force s

/-- A manifest: ordered feature sections, each with a formula identifier and
a configuration fingerprint.  Manifest parsing lives in the external
Config/Manifest collaborator (sprinter/manifest.py, not under src/); this
shape follows the spec, sections 3 and 6. -/
abbrev SManifest := List (String × String × Nat)

def mnames (m : SManifest) : List String := m.map (fun x => x.1)

def sections (m : SManifest) : List FeatureKey := m.map (fun x => (x.1, x.2.1))

def cfgOf : SManifest → String → Option (String × Nat)
  | [], _ => none
  | x :: rest, n => if x.1 = n then some x.2 else cfgOf rest n

/-- Modelled from the spec: the update category holds the features present in
both manifests whose configuration differs (section 3, Category Partition;
Config.updates in the external collaborator). -/
def changedFeatures (src tgt : SManifest) : List String :=
  (mnames tgt).filter (fun n =>
    match cfgOf src n, cfgOf tgt n with
    | some a, some b => a != b
    | _, _ => false)

/-- Modelled from the spec: the setup category, features only in the target. -/
def newFeatures (src tgt : SManifest) : List String :=
  (mnames tgt).filter (fun n => !((mnames src).contains n))

/-- Modelled from the spec: the destroy category, features only in the source. -/
def removedFeatures (src tgt : SManifest) : List String :=
  (mnames src).filter (fun n => !((mnames tgt).contains n))

/-- From _instantiate_features (env.py:254-273): one handler instance per
(feature, formula) key, iterating source sections then target sections, in
first-insertion order (the keys of the feature dictionary). -/
def featureKeys (src tgt : SManifest) : List FeatureKey :=
  (sections src ++ sections tgt).foldl
    (fun acc k => if acc.contains k then acc else acc ++ [k]) []

/-- From _instantiate_features (env.py:254-273): beyond the evident missing
parenthesis at env.py:261, the loop body reads the bare names config
(env.py:264 and 269; the bound local is feature_config) and errors
(env.py:273), so the first feature of either manifest raises NameError; only
when both manifests are featureless does the loop body never run, leaving
the feature dictionary untouched. -/
def instantiateFeatures (src tgt : SManifest) (s : EnvState) : EnvState × Option Exc :=
  match sections src ++ sections tgt with
  | [] => (s, none)
  | _ :: _ => (s, some (.nameError "config"))

def specActs (features : List FeatureKey) : List (FeatureKey × String × Bool) :=
  features.flatMap (fun f => [(f, "validate", true), (f, "prompt", false)])

/-- From _specialize_contexts (env.py:347-353): for every feature run
validate with run_if_error set, then prompt; grab_inputs and the context
dictionaries are external-collaborator work, modelled as no-ops. -/
def specializeContexts (h : Handlers) (features : List FeatureKey) (s : EnvState) :
    EnvState × Option Exc :=
  runActs h (specActs features) s

def syncActs (features : List FeatureKey) : List (FeatureKey × String × Bool) :=
  features.map (fun f => (f, "sync", false))

def manifestPath (root : String) : String := root ++ "/manifest"

def rootPaths (root : String) : List String :=
  [root, root ++ "/bin", root ++ "/lib", root ++ "/include",
   root ++ "/manifest", root ++ "/.rc"]

/-- From inject_environment_rc (env.py:184-192): queue the hook operations. -/
def injectEnvRcE (s : EnvState) : EnvState :=
  {s with queue := s.queue ++ injectEnvironmentRcOps s.root}

def clearEnvRcOps : List (String × IAction) :=
  [("~/.profile", IAction.clearA), ("~/.bash_profile", IAction.clearA),
   ("~/.bashrc", IAction.clearA)]

/-- From clear_environment_rc (env.py:194-198): queue clears for all three
shell files. -/
def clearEnvRcE (s : EnvState) : EnvState :=
  {s with queue := s.queue ++ clearEnvRcOps}

def exportLines (root : String) : List String :=
  ["export PATH=" ++ (root ++ "/bin:$PATH"),
   "export LIBRARY_PATH=" ++ (root ++ "/lib:$LIBRARY_PATH"),
   "export C_INCLUDE_PATH=" ++ (root ++ "/include:$C_INCLUDE_PATH")]

/-- From _finalize (env.py:275-286): write the target manifest content only
when the manifest path already exists on disk, append the three export lines
to the rc file when rc rewriting is enabled, and commit the queued
injections. -/
def finalizeE (s : EnvState) : EnvState :=
  let s1 := if s.fs.contains (manifestPath s.root)
            then {s with manifestFile := some s.targetManifest}
            else s
  let s2 := if s1.rewriteRc
            then {s1 with rcLines := s1.rcLines ++ exportLines s1.root,
                          fs := addPath (s1.root ++ "/.rc") s1.fs}
            else s1
  {s2 with committed := true, queue := []}

/-- From Environment.update (env.py:105-121): after the warmup and
install_required guards, the first body statement is
self.phase = PHASE.UPDATE (env.py:109); only PHASES is imported (env.py:7),
so the unbound name PHASE raises NameError before install_sandboxes, feature
instantiation, resolve_feature and every handler action. -/
def update (src tgt : SManifest) (h : Handlers) (s : EnvState) :
    EnvState × Option Exc :=
  if s.dirNew then (s, some (.notInstalled s.ns))
  else (s, some (.nameError "PHASE"))

/-- From Environment.install (env.py:80-103): the first body statement after
warmup is self.phase = PHASE.INSTALL (env.py:83); the unbound name PHASE
raises NameError before the new-check, the try block, directory
initialization, the delegation to update and every handler action, so every
call fails immediately with the state untouched. -/
def install (src tgt : SManifest) (h : Handlers) (s : EnvState) :
    EnvState × Option Exc :=
  (s, some (.nameError "PHASE"))

/-- From Environment.remove (env.py:123-135): guarded by install_required;
the phase is the plain string "remove", so the body proceeds into
_instantiate_features (see instantiateFeatures: NameError for any feature);
if that returns, the run specializes contexts, runs the sync action for
every feature, queues hook clears, deletes the root and commits. -/
def removeEnv (src tgt : SManifest) (h : Handlers) (s : EnvState) :
    EnvState × Option Exc :=
  if s.dirNew then (s, some (.notInstalled s.ns))
  else
    match (instantiateFeatures src tgt s).2 with
    | some e => ((instantiateFeatures src tgt s).1, some e)
    | none =>
      match (specializeContexts h (featureKeys src tgt)
              (instantiateFeatures src tgt s).1).2 with
      | some e =>
        ((specializeContexts h (featureKeys src tgt)
            (instantiateFeatures src tgt s).1).1, some e)
      | none =>
        match (runActs h (syncActs (featureKeys src tgt))
                (specializeContexts h (featureKeys src tgt)
                  (instantiateFeatures src tgt s).1).1).2 with
        | some e =>
          ((runActs h (syncActs (featureKeys src tgt))
              (specializeContexts h (featureKeys src tgt)
                (instantiateFeatures src tgt s).1).1).1, some e)
        | none =>
          ({clearEnvRcE (runActs h (syncActs (featureKeys src tgt))
              (specializeContexts h (featureKeys src tgt)
                (instantiateFeatures src tgt s).1).1).1 with
            fs := ((runActs h (syncActs (featureKeys src tgt))
              (specializeContexts h (featureKeys src tgt)
                (instantiateFeatures src tgt s).1).1).1).fs.filter
                (fun p => !((rootPaths s.root).contains p)),
            committed := true, queue := []}, none)

/-- From Environment.activate (env.py:151-162): guarded by install_required;
disables rc rewriting, runs the activate action for every feature (without
re-instantiating the feature dictionary), queues the hook and finalizes. -/
def activate (src tgt : SManifest) (h : Handlers) (s : EnvState) :
    EnvState × Option Exc :=
  if s.dirNew then (s, some (.notInstalled s.ns))
  else
    match (specializeContexts h (featureKeys src tgt) {s with rewriteRc := false}).2 with
    | some e =>
      ((specializeContexts h (featureKeys src tgt) {s with rewriteRc := false}).1, some e)
    | none =>
      match (runActs h ((featureKeys src tgt).map (fun f => (f, "activate", false)))
              (specializeContexts h (featureKeys src tgt) {s with rewriteRc := false}).1).2 with
      | some e =>
        ((runActs h ((featureKeys src tgt).map (fun f => (f, "activate", false)))
            (specializeContexts h (featureKeys src tgt) {s with rewriteRc := false}).1).1,
         some e)
      | none =>
        (finalizeE (injectEnvRcE
          (runActs h ((featureKeys src tgt).map (fun f => (f, "activate", false)))
            (specializeContexts h (featureKeys src tgt) {s with rewriteRc := false}).1).1),
         none)

/-- From Environment.deactivate (env.py:137-149): guarded by
install_required; the phase is the plain string "deactivate"; rc rewriting is
disabled, then _instantiate_features runs (see instantiateFeatures: NameError
for any feature); if that returns, the deactivate action runs for every
feature, hook clears are queued and the run finalizes. -/
def deactivate (src tgt : SManifest) (h : Handlers) (s : EnvState) :
    EnvState × Option Exc :=
  if s.dirNew then (s, some (.notInstalled s.ns))
  else
    match (instantiateFeatures src tgt {s with rewriteRc := false}).2 with
    | some e => ((instantiateFeatures src tgt {s with rewriteRc := false}).1, some e)
    | none =>
      match (specializeContexts h (featureKeys src tgt)
              (instantiateFeatures src tgt {s with rewriteRc := false}).1).2 with
      | some e =>
        ((specializeContexts h (featureKeys src tgt)
            (instantiateFeatures src tgt {s with rewriteRc := false}).1).1, some e)
      | none =>
        match (runActs h ((featureKeys src tgt).map (fun f => (f, "deactivate", false)))
                (specializeContexts h (featureKeys src tgt)
                  (instantiateFeatures src tgt {s with rewriteRc := false}).1).1).2 with
        | some e =>
          ((runActs h ((featureKeys src tgt).map (fun f => (f, "deactivate", false)))
              (specializeContexts h (featureKeys src tgt)
                (instantiateFeatures src tgt {s with rewriteRc := false}).1).1).1,
           some e)
        | none =>
          (finalizeE (clearEnvRcE
            (runActs h ((featureKeys src tgt).map (fun f => (f, "deactivate", false)))
              (specializeContexts h (featureKeys src tgt)
                (instantiateFeatures src tgt {s with rewriteRc := false}).1).1).1),
           none)

/-! ### Supporting lemmas about action dispatch -/

theorem runAction_skip (h : Handlers) (f : FeatureKey) (a : String) (s : EnvState)
    (he : s.err f ≠ []) :
    runAction h f a false s = (s, none) := by
  unfold runAction
  rw [if_pos ⟨he, rfl⟩]

theorem runAction_ok (h : Handlers) (f : FeatureKey) (a : String) (force : Bool)
    (s : EnvState) (errs : List String)
    (hcond : s.err f = [] ∨ force = true) (hh : h f a = Outcome.ok errs) :
    runAction h f a force s
      = ({s with err := fun g => if g = f then s.err f ++ errs else s.err g,
                 errorOccured := s.errorOccured || !errs.isEmpty,
                 log := s.log ++ [(f, a)]}, none) := by
  have hn : ¬ (s.err f ≠ [] ∧ force = false) := by
    rintro ⟨h1, h2⟩
    rcases hcond with hc | hc
    · exact h1 hc
    · rw [hc] at h2
      cases h2
  unfold runAction
  rw [if_neg hn, hh]

theorem runActs_cons_step (h : Handlers) (f : FeatureKey) (a : String) (force : Bool)
    (rest : List (FeatureKey × String × Bool)) (s s1 : EnvState)
    (hr : runAction h f a force s = (s1, none)) :
    runActs h ((f, a, force) :: rest) s = runActs h rest s1 := by
  simp only [runActs]
  rw [hr]

theorem runActs_cons_abort (h : Handlers) (f : FeatureKey) (a : String) (force : Bool)
    (rest : List (FeatureKey × String × Bool)) (s s1 : EnvState) (e : Exc)
    (hr : runAction h f a force s = (s1, some e)) :
    runActs h ((f, a, force) :: rest) s = (s1, some e) := by
  simp only [runActs]
  rw [hr]

theorem runAction_log (h : Handlers) (f : FeatureKey) (a : String) (force : Bool)
    (s : EnvState) :
    ∃ t, (runAction h f a force s).1.log = s.log ++ t := by
  unfold runAction
  by_cases hc : s.err f ≠ [] ∧ force = false
  · rw [if_pos hc]
    exact ⟨[], (List.append_nil _).symm⟩
  · rw [if_neg hc]
    cases h f a with
    | ok errs => exact ⟨[(f, a)], rfl⟩
    | raise m => exact ⟨[(f, a)], rfl⟩

theorem runAction_err_other (h : Handlers) (f : FeatureKey) (a : String) (force : Bool)
    (s : EnvState) (g : FeatureKey) (hg : g ≠ f) :
    (runAction h f a force s).1.err g = s.err g := by
  unfold runAction
  by_cases hc : s.err f ≠ [] ∧ force = false
  · rw [if_pos hc]
  · rw [if_neg hc]
    cases h f a with
    | ok errs =>
      show (if g = f then s.err f ++ errs else s.err g) = s.err g
      rw [if_neg hg]
    | raise m => rfl

theorem runActs_log_mono (h : Handlers) (acts : List (FeatureKey × String × Bool))
    (s : EnvState) :
    ∃ t, (runActs h acts s).1.log = s.log ++ t := by
  induction acts generalizing s with
  | nil => exact ⟨[], (List.append_nil _).symm⟩
  | cons x rest ih =>
    obtain ⟨f, a, force⟩ := x
    obtain ⟨t1, ht1⟩ := runAction_log h f a force s
    rcases hra : runAction h f a force s with ⟨s1, e⟩
    have hfst : (runAction h f a force s).1 = s1 := by rw [hra]
    rw [hfst] at ht1
    cases e with
    | none =>
      rw [runActs_cons_step h f a force rest s s1 hra]
      obtain ⟨t2, ht2⟩ := ih s1
      exact ⟨t1 ++ t2, by rw [ht2, ht1, List.append_assoc]⟩
    | some exc =>
      rw [runActs_cons_abort h f a force rest s s1 exc hra]
      exact ⟨t1, ht1⟩

theorem mem_log_runActs (h : Handlers) (acts : List (FeatureKey × String × Bool))
    (s : EnvState) (x : FeatureKey × String) (hx : x ∈ s.log) :
    x ∈ (runActs h acts s).1.log := by
  obtain ⟨t, ht⟩ := runActs_log_mono h acts s
  rw [ht]
  exact List.mem_append_left t hx

theorem runActs_cons_no_raise (h : Handlers) (f : FeatureKey) (a : String)
    (force : Bool) (rest : List (FeatureKey × String × Bool)) (s : EnvState)
    (hok : ∃ errs, h f a = Outcome.ok errs) :
    ∃ s1, runActs h ((f, a, force) :: rest) s = runActs h rest s1
      ∧ (∃ t, s1.log = s.log ++ t)
      ∧ (∀ k, k ≠ f → s1.err k = s.err k) := by
  obtain ⟨errs, he⟩ := hok
  by_cases hc : s.err f ≠ [] ∧ force = false
  · have hstep : runAction h f a force s = (s, none) := by
      unfold runAction
      rw [if_pos hc]
    exact ⟨s, runActs_cons_step h f a force rest s s hstep,
      ⟨[], (List.append_nil _).symm⟩, fun k _ => rfl⟩
  · have hcond : s.err f = [] ∨ force = true := by
      rcases not_and_or.mp hc with h1 | h2
      · exact Or.inl (not_not.mp h1)
      · refine Or.inr ?_
        revert h2
        cases force <;> simp
    have hstep := runAction_ok h f a force s errs hcond he
    refine ⟨_, runActs_cons_step h f a force rest s _ hstep, ⟨[(f, a)], rfl⟩, ?_⟩
    intro k hk
    show (if k = f then s.err f ++ errs else s.err k) = s.err k
    rw [if_neg hk]

theorem specActs_cons (f : FeatureKey) (rest : List FeatureKey) :
    specActs (f :: rest)
      = (f, "validate", true) :: (f, "prompt", false) :: specActs rest := rfl

theorem validate_in_log (h : Handlers) (features : List FeatureKey) (s : EnvState)
    (f : FeatureKey) (hok : ∀ g a, ∃ errs, h g a = Outcome.ok errs)
    (hf : f ∈ features) :
    (f, "validate") ∈ (specializeContexts h features s).1.log := by
  unfold specializeContexts
  induction features generalizing s with
  | nil => cases hf
  | cons g rest ih =>
    rw [specActs_cons]
    by_cases hfg : f = g
    · subst hfg
      obtain ⟨ev, hev⟩ := hok f "validate"
      have hstep := runAction_ok h f "validate" true s ev (Or.inr rfl) hev
      rw [runActs_cons_step h f "validate" true _ s _ hstep]
      apply mem_log_runActs
      exact List.mem_append_right _ (List.mem_cons_self _ _)
    · have hf2 : f ∈ rest := by
        rcases List.mem_cons.mp hf with he | hf2
        · exact absurd he hfg
        · exact hf2
      obtain ⟨s1, hs1, _, _⟩ := runActs_cons_no_raise h g "validate" true
        ((g, "prompt", false) :: specActs rest) s (hok g "validate")
      rw [hs1]
      obtain ⟨s2, hs2, _, _⟩ := runActs_cons_no_raise h g "prompt" false
        (specActs rest) s1 (hok g "prompt")
      rw [hs2]
      exact ih s2 hf2

theorem sync_in_log (h : Handlers) (features : List FeatureKey) (s : EnvState)
    (f : FeatureKey) (hok : ∀ g a, ∃ errs, h g a = Outcome.ok errs)
    (hf : f ∈ features) (hemp : s.err f = []) :
    (f, "sync") ∈ (runActs h (syncActs features) s).1.log := by
  induction features generalizing s with
  | nil => cases hf
  | cons g rest ih =>
    have hsync : syncActs (g :: rest) = (g, "sync", false) :: syncActs rest := rfl
    rw [hsync]
    by_cases hfg : f = g
    · subst hfg
      obtain ⟨es, hes⟩ := hok f "sync"
      have hstep := runAction_ok h f "sync" false s es (Or.inl hemp) hes
      rw [runActs_cons_step h f "sync" false _ s _ hstep]
      apply mem_log_runActs
      exact List.mem_append_right _ (List.mem_cons_self _ _)
    · have hf2 : f ∈ rest := by
        rcases List.mem_cons.mp hf with he | hf2
        · exact absurd he hfg
        · exact hf2
      obtain ⟨s1, hs1, _, herr1⟩ := runActs_cons_no_raise h g "sync" false
        (syncActs rest) s (hok g "sync")
      rw [hs1]
      exact ih s1 hf2 (by rw [herr1 f hfg]; exact hemp)

/-- Claim C5: within one invocation, a nonempty error record suppresses any
further unforced action for that feature (the action does not run and the
state is unchanged); the validate action is dispatched with run_if_error set
during context specialization and so is logged for every feature even when
records are nonempty; an action on one feature never touches a sibling
feature's record; and a sibling feature whose own record is empty still runs
its sync action whatever the other records hold. -/
theorem error_suppression (h : Handlers) (s : EnvState) (features : List FeatureKey)
    (f : FeatureKey) (hok : ∀ g a, ∃ errs, h g a = Outcome.ok errs) :
    (∀ a, s.err f ≠ [] → runAction h f a false s = (s, none))
    ∧ (f ∈ features → (f, "validate") ∈ (specializeContexts h features s).1.log)
    ∧ (∀ a force g, g ≠ f → (runAction h f a force s).1.err g = s.err g)
    ∧ (f ∈ features → s.err f = [] →
        (f, "sync") ∈ (runActs h (syncActs features) s).1.log) := by
  refine ⟨?_, ?_, ?_, ?_⟩
  · intro a he
    exact runAction_skip h f a s he
  · intro hf
    exact validate_in_log h features s f hok hf
  · intro a force g hg
    exact runAction_err_other h f a force s g hg
  · intro hf he
    exact sync_in_log h features s f hok hf he

def baseState : EnvState :=
  {ns := "test", root := "/home/u/.sprinter/test", dirNew := false,
   rewriteRc := true, fs := [], err := fun _ => [], errorOccured := false,
   log := [], queue := [], rcLines := [], manifestFile := none,
   targetManifest := ["[config]"], committed := false}

def errState : EnvState :=
  {baseState with err := fun k => if k = ("git", "package") then ["fail"] else []}

def hOk : Handlers := fun _ _ => Outcome.ok []

theorem error_suppression_witness :
    (∀ g a, ∃ errs, hOk g a = Outcome.ok errs)
    ∧ ((∀ a, errState.err ("git", "package") ≠ [] →
          runAction hOk ("git", "package") a false errState = (errState, none))
      ∧ (("git", "package") ∈ [(("git", "package") : FeatureKey), ("ruby", "package")] →
          (("git", "package"), "validate")
            ∈ (specializeContexts hOk
                [(("git", "package") : FeatureKey), ("ruby", "package")] errState).1.log)
      ∧ (∀ a force g, g ≠ ("git", "package") →
          (runAction hOk ("git", "package") a force errState).1.err g = errState.err g)
      ∧ (("git", "package") ∈ [(("git", "package") : FeatureKey), ("ruby", "package")] →
          errState.err ("git", "package") = [] →
          (("git", "package"), "sync")
            ∈ (runActs hOk
                (syncActs [(("git", "package") : FeatureKey), ("ruby", "package")])
                errState).1.log)) :=
  ⟨fun g a => ⟨[], rfl⟩,
   error_suppression hOk errState [("git", "package"), ("ruby", "package")]
     ("git", "package") (fun g a => ⟨[], rfl⟩)⟩

/-- Claim C6: with the directory new (environment absent), update, remove,
activate and deactivate all return the exception raised by the
install_required guard, SprinterException with message
Namespace ... is not yet installed (the NotInstalledError kind of the spec
taxonomy), and leave the state untouched: no lifecycle action runs. -/
theorem not_installed_guard (src tgt : SManifest) (h : Handlers) (s : EnvState)
    (hnew : s.dirNew = true) :
    update src tgt h s = (s, some (Exc.notInstalled s.ns))
    ∧ removeEnv src tgt h s = (s, some (Exc.notInstalled s.ns))
    ∧ activate src tgt h s = (s, some (Exc.notInstalled s.ns))
    ∧ deactivate src tgt h s = (s, some (Exc.notInstalled s.ns)) := by
  refine ⟨?_, ?_, ?_, ?_⟩
  · unfold update
    rw [if_pos hnew]
  · unfold removeEnv
    rw [if_pos hnew]
  · unfold activate
    rw [if_pos hnew]
  · unfold deactivate
    rw [if_pos hnew]

def newDirState : EnvState := {baseState with dirNew := true}

theorem not_installed_guard_witness :
    newDirState.dirNew = true
    ∧ update [] [] hOk newDirState = (newDirState, some (Exc.notInstalled newDirState.ns))
    ∧ removeEnv [] [] hOk newDirState
        = (newDirState, some (Exc.notInstalled newDirState.ns))
    ∧ activate [] [] hOk newDirState
        = (newDirState, some (Exc.notInstalled newDirState.ns))
    ∧ deactivate [] [] hOk newDirState
        = (newDirState, some (Exc.notInstalled newDirState.ns)) :=
  ⟨rfl, (not_installed_guard [] [] hOk newDirState rfl).1,
   (not_installed_guard [] [] hOk newDirState rfl).2.1,
   (not_installed_guard [] [] hOk newDirState rfl).2.2.1,
   (not_installed_guard [] [] hOk newDirState rfl).2.2.2⟩

/-- Claim C7 (amended): finalize writes the target manifest content to the
manifest file exactly when the manifest path already exists on disk (not when
the environment root exists), appends the three export lines to the rc file
exactly when rc rewriting is enabled, and always commits the queued
injections. -/
theorem finalize_amended (s : EnvState) :
    ((finalizeE s).manifestFile
      = if s.fs.contains (manifestPath s.root) then some s.targetManifest
        else s.manifestFile)
    ∧ ((finalizeE s).rcLines
      = if s.rewriteRc then s.rcLines ++ exportLines s.root else s.rcLines)
    ∧ (finalizeE s).committed = true := by
  unfold finalizeE
  by_cases h1 : manifestPath s.root ∈ s.fs <;>
    by_cases h2 : s.rewriteRc = true <;>
      simp [h1, h2]

def rootOnlyState : EnvState :=
  {baseState with fs := [baseState.root, baseState.root ++ "/bin"]}

/-- Claim C7 counterexample: with the environment root present on disk but
the manifest file absent (a root whose manifest was never written), finalize
does not write the manifest even though the root exists, refuting the
claimed equivalence between writing the manifest and the root still
existing. -/
theorem finalize_manifest_cex :
    rootOnlyState.root ∈ rootOnlyState.fs
    ∧ (finalizeE rootOnlyState).manifestFile = none
    ∧ ¬ (((finalizeE rootOnlyState).manifestFile ≠ none)
          ↔ rootOnlyState.root ∈ rootOnlyState.fs) := by
  refine ⟨by decide, by decide, by decide⟩

def cex2Src : SManifest := [("rem", "formulaA", 0)]

def cex2Tgt : SManifest := [("new", "formulaA", 0)]


/-- Claim C2 (amended): update dispatches no handler actions at all.  Once
the install_required guard passes, its first body statement is
self.phase = PHASE.UPDATE (env.py:109); only PHASES is imported (env.py:7),
so the unbound name PHASE raises NameError before install_sandboxes, feature
instantiation, resolve_feature and every setup, update, destroy or sync
action, and the state is left untouched. -/
theorem update_dispatch_amended (src tgt : SManifest) (h : Handlers) (s : EnvState)
    (hnew : s.dirNew = false) :
    update src tgt h s = (s, some (Exc.nameError "PHASE"))
    ∧ (update src tgt h s).1.log = s.log := by
  have hne : ¬ (s.dirNew = true) := by
    rw [hnew]
    intro hc
    cases hc
  constructor
  · unfold update
    rw [if_neg hne]
  · unfold update
    rw [if_neg hne]

/-- Claim C2 counterexample: source {rem}, target {new}.  update raises
NameError over the unbound name PHASE and dispatches nothing: the action
trace stays empty, so in particular no setup action runs for the new feature
and no destroy action runs for the removed feature, refuting the claimed
setup-update-destroy dispatch. -/
theorem update_dispatch_cex :
    newFeatures cex2Src cex2Tgt = ["new"]
    ∧ removedFeatures cex2Src cex2Tgt = ["rem"]
    ∧ baseState.dirNew = false
    ∧ (update cex2Src cex2Tgt hOk baseState).2 = some (Exc.nameError "PHASE")
    ∧ (update cex2Src cex2Tgt hOk baseState).1.log = []
    ∧ ((("new", "formulaA"), "setup") ∉ (update cex2Src cex2Tgt hOk baseState).1.log)
    ∧ ((("rem", "formulaA"), "destroy") ∉ (update cex2Src cex2Tgt hOk baseState).1.log) := by
  refine ⟨by decide, by decide, rfl, by decide, by decide, by decide, by decide⟩

theorem update_dispatch_amended_witness :
    baseState.dirNew = false
    ∧ update cex2Src cex2Tgt hOk baseState = (baseState, some (Exc.nameError "PHASE"))
    ∧ (update cex2Src cex2Tgt hOk baseState).1.log = baseState.log :=
  ⟨rfl, (update_dispatch_amended cex2Src cex2Tgt hOk baseState rfl).1,
   (update_dispatch_amended cex2Src cex2Tgt hOk baseState rfl).2⟩

def hCex1 : Handlers := fun _ a =>
  if a = "sync" then Outcome.raise "boom" else Outcome.ok []

def cex1M : SManifest := [("git", "package", 0)]

def excPayload : Exc → String
  | .notInstalled n => n
  | .attrError a => a
  | .handlerExc m => m
  | .nameError n => n

/-- Claim C1 (amended): install never reaches a handler action.  Its first
body statement is self.phase = PHASE.INSTALL (env.py:83), before the
new-check and the try block; the unbound name PHASE raises NameError, so on
a previously nonexistent namespace the environment root still does not exist
after the call (nothing is ever created, hence no partially-installed
environment), no action is logged, and the exception that propagates is that
NameError: the handler's setup exception never occurs and neither it nor an
error wrapping it reaches the caller. -/
theorem install_rollback_amended (src tgt : SManifest) (h : Handlers) (s : EnvState)
    (hnew : s.dirNew = true) (hroot : s.root ∉ s.fs)
    (hex : ∃ f ∈ featureKeys src tgt, ∃ m, h f "sync" = Outcome.raise m) :
    install src tgt h s = (s, some (Exc.nameError "PHASE"))
    ∧ s.root ∉ (install src tgt h s).1.fs
    ∧ (install src tgt h s).1.log = s.log :=
  ⟨rfl, hroot, rfl⟩

/-- Claim C1 counterexample: a fresh namespace and a handler whose sync
(setup) action would raise "boom".  install raises NameError over the
unbound name PHASE before any handler runs: no action is logged, the root is
never created, and the propagated exception neither is the handler's
exception nor carries its message, so the original exception (or an error
wrapping it) does not propagate as the claim states. -/
theorem install_rollback_cex :
    newDirState.dirNew = true
    ∧ hCex1 ("git", "package") "sync" = Outcome.raise "boom"
    ∧ (install cex1M cex1M hCex1 newDirState).2 = some (Exc.nameError "PHASE")
    ∧ (install cex1M cex1M hCex1 newDirState).1.log = []
    ∧ newDirState.root ∉ (install cex1M cex1M hCex1 newDirState).1.fs
    ∧ (∀ e, (install cex1M cex1M hCex1 newDirState).2 = some e →
        e ≠ Exc.handlerExc "boom" ∧ excPayload e ≠ "boom") := by
  have h3 : (install cex1M cex1M hCex1 newDirState).2
      = some (Exc.nameError "PHASE") := rfl
  refine ⟨rfl, by decide, h3, rfl, by decide, ?_⟩
  intro e he
  rw [h3] at he
  injection he with he2
  subst he2
  exact ⟨by decide, by decide⟩

theorem install_rollback_amended_witness :
    newDirState.dirNew = true
    ∧ newDirState.root ∉ newDirState.fs
    ∧ (∃ f ∈ featureKeys cex1M cex1M, ∃ m, hCex1 f "sync" = Outcome.raise m)
    ∧ install cex1M cex1M hCex1 newDirState
        = (newDirState, some (Exc.nameError "PHASE"))
    ∧ newDirState.root ∉ (install cex1M cex1M hCex1 newDirState).1.fs
    ∧ (install cex1M cex1M hCex1 newDirState).1.log = newDirState.log :=
  ⟨rfl, by decide, ⟨("git", "package"), by decide, "boom", by decide⟩,
   (install_rollback_amended cex1M cex1M hCex1 newDirState rfl (by decide)
     ⟨("git", "package"), by decide, "boom", by decide⟩).1,
   (install_rollback_amended cex1M cex1M hCex1 newDirState rfl (by decide)
     ⟨("git", "package"), by decide, "boom", by decide⟩).2.1,
   (install_rollback_amended cex1M cex1M hCex1 newDirState rfl (by decide)
     ⟨("git", "package"), by decide, "boom", by decide⟩).2.2⟩
